import Mathlib

/-!
# Verification of the datalake file-move scripts

Shallow embedding of the two scripts of this repository:

* `src/app/main.py` — predicate mode: lists files under a source path,
  filters them by upload date and an embedded `SalesCompanyId`, then moves
  each accepted file (download, upload, delete) in batches over a thread
  pool.
* `src/app/app.py` — manifest mode: reads blob names from a CSV manifest
  and issues a server-side copy for each one (the delete is commented out
  in the source).

Python strings are modelled as `List Char` (a Python `str` is a sequence
of code points).  Timestamps (`datetime` values) are modelled as `Int`,
which is faithful for everything the scripts do with them (total-order
comparisons).  The Azure SDK calls are modelled by oracles recording the
outcome each call would have, and the effectful functions return the
trace of store calls they perform.
-/

set_option autoImplicit false

namespace DatalakeMove

/-! ## Python string primitives (on `List Char`) -/

/-- A Python string: a sequence of code points. -/
abbrev PyStr := List Char

/-- Python `s.lstrip(c)` for a single-character strip set: drop every
leading occurrence of `c`. -/
def pyLstrip (c : Char) (s : PyStr) : PyStr :=
  s.dropWhile (fun x => x = c)

/-- Python `s.rstrip(c)` for a single-character strip set: drop every
trailing occurrence of `c`. -/
def pyRstrip (c : Char) (s : PyStr) : PyStr :=
  (s.reverse.dropWhile (fun x => x = c)).reverse

/-- Python `s.startswith(pre)`. -/
def pyStartswith (s pre : PyStr) : Bool :=
  pre.isPrefixOf s

/-- Python `s.replace(pat, rep, 1)`: replace the leftmost occurrence of
`pat` (an empty `pat` matches at position 0, as in Python). -/
def pyReplace1 (s pat rep : PyStr) : PyStr :=
  match s with
  | [] => if pat.isPrefixOf ([] : PyStr) then rep else []
  | c :: cs =>
      if pat.isPrefixOf (c :: cs) then rep ++ (c :: cs).drop pat.length
      else c :: pyReplace1 cs pat rep

/-- Fuelled worker for `pyReplaceAll` (fuel keeps the recursion
structural so that the kernel can evaluate it; `fuel = s.length`
always suffices for a non-empty pattern). -/
def pyReplaceAllGo (fuel : Nat) (s pat rep : PyStr) : PyStr :=
  match fuel, s with
  | _, [] => []
  | 0, s => s
  | fuel + 1, c :: cs =>
      if pat.isPrefixOf (c :: cs) then
        rep ++ pyReplaceAllGo fuel ((c :: cs).drop pat.length) pat rep
      else c :: pyReplaceAllGo fuel cs pat rep

/-- Python `s.replace(pat, rep)` (all occurrences, scanning left to
right, non-overlapping).  For the empty pattern Python interleaves the
replacement around every character. -/
def pyReplaceAll (s pat rep : PyStr) : PyStr :=
  match pat with
  | [] => rep ++ s.flatMap (fun c => c :: rep)
  | _ :: _ => pyReplaceAllGo s.length s pat rep

/-- Python `s.split(sep)` for a single-character separator: splits at
every occurrence, keeping empty pieces (`"".split(sep) == [""]`). -/
def pySplit (sep : Char) : PyStr → List PyStr
  | [] => [[]]
  | c :: cs =>
      let r := pySplit sep cs
      if c = sep then [] :: r
      else
        match r with
        | [] => [[c]]
        | h :: t => (c :: h) :: t

/-- Python `s.split('/')[-1]`: the final path segment.  `pySplit` never
returns an empty list, so the default is never used. -/
def pyBasename (s : PyStr) : PyStr :=
  (pySplit '/' s).getLastD []

/-- Python `'/'.join(parts)`. -/
def pyJoin (sep : Char) (parts : List PyStr) : PyStr :=
  List.intercalate [sep] parts

/-- Python `pat in s` for strings: substring occurrence (the empty
string occurs in every string). -/
def pyInStr (pat : PyStr) : PyStr → Bool
  | [] => pat.isEmpty
  | c :: cs => pat.isPrefixOf (c :: cs) || pyInStr pat cs

/-! ## JSON values (the output of `json.loads`)

`json.loads` can return a dict, list, string, number, boolean or `None`.
Numbers are modelled as `Int` (the scripts only ever stringify them; the
repository's payloads carry integer identifiers).  Dicts are modelled as
association lists in insertion order, as produced by the parser. -/

inductive JVal : Type where
  | null : JVal
  | bool : Bool → JVal
  | num : Int → JVal
  | str : String → JVal
  | arr : List JVal → JVal
  | obj : List (String × JVal) → JVal
  deriving Inhabited

mutual

/-- Python `repr` of a parsed-JSON value, as used by `str` on containers.
String escaping is not modelled (the repository's payloads are plain
identifier strings); on the escape-free fragment this matches Python. -/
def pyRepr : JVal → String
  | .null => "None"
  | .bool true => "True"
  | .bool false => "False"
  | .num n => toString n
  | .str s => "'" ++ s ++ "'"
  | .arr l => "[" ++ ", ".intercalate (pyReprList l) ++ "]"
  | .obj f => "\x7b" ++ ", ".intercalate (pyReprFields f) ++ "\x7d"

def pyReprList : List JVal → List String
  | [] => []
  | v :: vs => pyRepr v :: pyReprList vs

def pyReprFields : List (String × JVal) → List String
  | [] => []
  | (k, v) :: fs => ("'" ++ k ++ "': " ++ pyRepr v) :: pyReprFields fs

end

/-- Python `str(v)` for a parsed-JSON value (`str` is the identity on
strings and `repr`-like on containers). -/
def pyStr : JVal → String
  | .str s => s
  | v => pyRepr v

/-! ## The predicate-mode filter evaluator of `main.py`

`check_file_content` (lines 49–106) downloads the file, parses it as
JSON, and looks for a `SalesCompanyId`.  The download and parse outcomes
are modelled by `ContentResult`:

* `fetchError` — the download raised (caught by the outer `except` at
  line 104, which returns `False`);
* `parseError` — `json.loads` raised `JSONDecodeError` (lines 97–102);
* `ok data` — the parsed JSON value.
-/

inductive ContentResult : Type where
  | fetchError : ContentResult
  | parseError : ContentResult
  | ok : JVal → ContentResult

/-- Lines 72–82: scan the items of the top-level dict in order; a
dict-valued field containing `'SalesCompanyId'` yields its value, a
list-valued field whose first element is a dict containing the key
yields that value; otherwise continue (the loop only `break`s on a
find). -/
def scanNested : List (String × JVal) → Option JVal
  | [] => none
  | (_, v) :: rest =>
      match v with
      | .obj sub =>
          match List.lookup "SalesCompanyId" sub with
          | some w => some w
          | none => scanNested rest
      | .arr (first :: _) =>
          match first with
          | .obj sub =>
              match List.lookup "SalesCompanyId" sub with
              | some w => some w
              | none => scanNested rest
          | _ => scanNested rest
      | _ => scanNested rest

/-- Lines 66–82: locate `SalesCompanyId` in the parsed value.
`.error ()` marks the paths on which the Python raises a `TypeError`
(`'SalesCompanyId' in data` on a number/bool/`None`, or indexing a
list/string with a string key), which the outer `except` turns into
`False`. -/
def findSCI : JVal → Except Unit (Option JVal)
  | .obj fields =>
      match List.lookup "SalesCompanyId" fields with
      | some v => .ok (some v)
      | none => .ok (scanNested fields)
  | .arr l =>
      -- `'SalesCompanyId' in data` on a list: membership test; a hit
      -- then makes `data['SalesCompanyId']` raise.
      if l.any (fun v => match v with | .str s => s == "SalesCompanyId" | _ => false)
      then .error () else .ok none
  | .str s =>
      -- `'SalesCompanyId' in data` on a string: substring test; a hit
      -- then makes `data['SalesCompanyId']` raise.
      if pyInStr ("SalesCompanyId".toList) s.toList then .error () else .ok none
  | _ => .error ()

/-- Model of `check_file_content(file_client, sales_company_id)` (lines 49–106),
with the download/parse outcome supplied as `content`.  Returns `True`
iff the file should be processed. -/
def check_file_content (content : ContentResult) (sales_company_id : Option String) : Bool :=
  match content with
  | .fetchError => false
  | .parseError =>
      -- lines 97–102
      match sales_company_id with
      | some _ => false
      | none => true
  | .ok data =>
      match sales_company_id with
      | none => true                    -- the whole block is guarded by line 64
      | some cid =>
          match findSCI data with
          | .error _ => false           -- TypeError caught at line 104
          | .ok none => false           -- line 85–87: not found
          | .ok (some v) => pyStr v == cid  -- lines 89–91 (str(cid) = cid)

/-- The metadata fields `should_process_file` consults
(`creation_time` / `last_modified`, lines 121–124).  Timestamps are
`Int` (datetimes under their total order). -/
structure FileProps : Type where
  creation_time : Option Int
  last_modified : Option Int

/-- Lines 120–124: derive the date used for the range check —
`creation_time` if present, else `last_modified`. -/
def fileDateOf (props : FileProps) : Option Int :=
  match props.creation_time with
  | some t => some t
  | none => props.last_modified

/-- The reasons `should_process_file` can return (line 129, 132, 141,
143), as an inductive in place of the Python format strings. -/
inductive Reason : Type where
  | beforeFilterDate : Int → Reason    -- "File uploaded before filter date: {d}"
  | afterFilterDate : Int → Reason     -- "File uploaded after filter date: {d}"
  | salesCompanyMismatch : Reason      -- "SalesCompanyId does not match"
  | matchesAllCriteria : Reason        -- "Matches all criteria"
  deriving DecidableEq

/-- Lines 138–143: the content phase of `should_process_file`.  The
third component instruments whether `check_file_content` was invoked
(and hence whether a download of the content was attempted). -/
def contentCheckPhase (content : ContentResult) (sales_company_id : Option String) :
    Bool × Reason × Bool :=
  match sales_company_id with
  | some cid =>
      if check_file_content content (some cid)
      then (true, .matchesAllCriteria, true)
      else (false, .salesCompanyMismatch, true)
  | none => (true, .matchesAllCriteria, false)

/-- Model of `should_process_file` (lines 109–146): date-range check on the
derived file date, then the content check.  Returns
`(should_process, reason, content_was_fetched)`. -/
def should_process_file (props : FileProps) (content : ContentResult)
    (date_after date_before : Option Int) (sales_company_id : Option String) :
    Bool × Reason × Bool :=
  match fileDateOf props with
  | some fd =>
      if (match date_after with | some a => decide (fd < a) | none => false) then
        (false, .beforeFilterDate fd, false)          -- lines 128–129
      else if (match date_before with | some b => decide (b < fd) | none => false) then
        (false, .afterFilterDate fd, false)           -- lines 131–132
      else contentCheckPhase content sales_company_id
  | none => contentCheckPhase content sales_company_id  -- date check skipped

/-- Lines 128–132 as a standalone predicate: does the date-range check
reject the file?  (Used to phrase hypotheses about candidates that pass
the date window.) -/
def dateRejects (props : FileProps) (date_after date_before : Option Int) : Bool :=
  match fileDateOf props with
  | none => false
  | some fd =>
      (match date_after with | some a => decide (fd < a) | none => false)
      || (match date_before with | some b => decide (b < fd) | none => false)

/-- The filtering loop of `main` (lines 242–260): each candidate is
evaluated independently and appended to `files_to_move` iff accepted;
a rejected candidate is skipped and the loop continues. -/
def filterPhase (cands : List (PyStr × FileProps × ContentResult))
    (date_after date_before : Option Int) (sales_company_id : Option String) : List PyStr :=
  match cands with
  | [] => []
  | (p, props, content) :: rest =>
      if (should_process_file props content date_after date_before sales_company_id).1
      then p :: filterPhase rest date_after date_before sales_company_id
      else filterPhase rest date_after date_before sales_company_id

/-! ## Path rewriting

Predicate mode (`main.py` lines 152–159): strip the source path prefix
if present, strip leading `'/'`, prepend the target path, collapse
`'//'`.  Manifest mode (`app.py` lines 45–53): substring-replace the
first occurrence of the source prefix by the target prefix; if that
changed nothing, fall back to the basename under the target prefix.

`app.py`'s `source_prefix` / `target_prefix` are named `srcPre` /
`tgtPre` here. -/

/-- Lines 152–159 of `main.py`: the target path `move_file` constructs. -/
def moveTargetPath (source_path TARGET_PATH file_path : PyStr) : PyStr :=
  let relative_path :=
    if pyStartswith file_path source_path
    then pyLstrip '/' (file_path.drop source_path.length)
    else pyLstrip '/' file_path
  pyReplaceAll (pyRstrip '/' TARGET_PATH ++ '/' :: relative_path) ['/', '/'] ['/']

/-- Lines 45–53 of `app.py`: the target blob name `copy_and_delete_blob`
constructs. -/
def manifestTargetPath (srcPre tgtPre blob_name : PyStr) : PyStr :=
  let target_blob_name := pyReplace1 blob_name srcPre tgtPre
  if target_blob_name == blob_name
  then pyRstrip '/' tgtPre ++ '/' :: pyBasename blob_name
  else target_blob_name

/-! ## The transfer executors as trace-producing functions

Each Azure call of `move_file` / `copy_and_delete_blob` is recorded as
an event; the outcome each call would have is supplied by an oracle. -/

/-- The store calls `move_file` performs, in the order performed. -/
inductive Ev : Type where
  | checkDirExists : PyStr → Ev
  | createDir : PyStr → Ev
  | download : Ev
  | upload : List Nat → Bool → Ev   -- payload bytes, overwrite flag
  | deleteSource : Ev
  deriving DecidableEq

/-- Outcomes of the store calls `move_file` can make.  `existsRes`
models `directory_client.exists()`, `downloadRes` the full content
read, and the `Except` error is the exception message. -/
structure MoveOracle : Type where
  existsRes : Except String Bool
  createRes : Except String Unit
  downloadRes : Except String (List Nat)
  uploadRes : Except String Unit
  deleteRes : Except String Unit

/-- Line 168 of `main.py`: the parent directory of the target path. -/
def targetDirOf (target_file_path : PyStr) : PyStr :=
  pyJoin '/' (pySplit '/' target_file_path).dropLast

/-- Model of `move_file` (lines 149–192): returns the trace of store calls (a
failing call is recorded as the last event), the returned boolean, and
the caught exception message if any. -/
def move_file (source_path TARGET_PATH file_path : PyStr) (o : MoveOracle) :
    List Ev × Bool × Option String :=
  let target_file_path := moveTargetPath source_path TARGET_PATH file_path
  let target_dir := targetDirOf target_file_path
  -- lines 167–172: ensure the target directory exists
  let dirStep : List Ev × Option String :=
    if target_dir = [] then ([], none)
    else
      match o.existsRes with
      | .error e => ([.checkDirExists target_dir], some e)
      | .ok true => ([.checkDirExists target_dir], none)
      | .ok false =>
          match o.createRes with
          | .error e => ([.checkDirExists target_dir, .createDir target_dir], some e)
          | .ok _ => ([.checkDirExists target_dir, .createDir target_dir], none)
  match dirStep with
  | (evs, some e) => (evs, false, some e)
  | (evs, none) =>
      -- lines 176–177: download the source content
      match o.downloadRes with
      | .error e => (evs ++ [.download], false, some e)
      | .ok content =>
          -- lines 179–182: upload with overwrite=True
          match o.uploadRes with
          | .error e => (evs ++ [.download, .upload content true], false, some e)
          | .ok _ =>
              -- line 185: delete the source
              match o.deleteRes with
              | .error e =>
                  (evs ++ [.download, .upload content true, .deleteSource], false, some e)
              | .ok _ =>
                  (evs ++ [.download, .upload content true, .deleteSource], true, none)

/-- The store calls `copy_and_delete_blob` can make. -/
inductive BlobEv : Type where
  | startCopy : PyStr → PyStr → BlobEv   -- source url, target blob name
  | deleteBlob : PyStr → BlobEv
  deriving DecidableEq

/-- Outcome of `start_copy_from_url`, plus the copy-completion status the
commented-out wait loop would poll (never consulted by the code). -/
structure CopyOracle : Type where
  startCopyRes : Except String String    -- ok: the copy id
  copyCompleted : Bool

/-- Model of `copy_and_delete_blob` of `app.py` (lines 35–69): issue the server-side
copy; the `except` swallows failures.  Returns the trace and whether the
success path (the "Successfully initiated copy" print) was reached.
The delete at line 66 is commented out in the source. -/
def copy_and_delete_blob (urlBase srcPre tgtPre blob_name : PyStr) (o : CopyOracle) :
    List BlobEv × Bool :=
  let source_blob_url := urlBase ++ blob_name
  let target_blob_name := manifestTargetPath srcPre tgtPre blob_name
  match o.startCopyRes with
  | .ok _ => ([.startCopy source_blob_url target_blob_name], true)
  | .error _ => ([.startCopy source_blob_url target_blob_name], false)

/-! ## The batch scheduler of `main.py` (lines 278–303)

Tasks are processed in consecutive slices of `BATCH_SIZE`; within a
slice every future is awaited (`as_completed`) and its boolean result
counted.  `move_file` catches every exception and returns a boolean, so
a task's contribution to the tally is exactly its boolean result; the
counters are order-independent, so the nondeterministic completion
order within a batch does not affect them. -/

/-- Fuelled worker for `chunks` (fuel keeps the recursion structural;
`fuel = l.length` suffices whenever `batchSize ≥ 1`). -/
def chunksGo {α : Type} (batchSize : Nat) : Nat → List α → List (List α)
  | _, [] => []
  | 0, l => [l]
  | fuel + 1, c :: cs =>
      ((c :: cs).take batchSize) :: chunksGo batchSize fuel ((c :: cs).drop batchSize)

/-- The consecutive slices `files_to_move[i : i + BATCH_SIZE]` of the
loop at line 283. -/
def chunks {α : Type} (batchSize : Nat) (l : List α) : List (List α) :=
  chunksGo batchSize l.length l

/-- Lines 289–299: count one batch's results into the running tally. -/
def countBatch (batch : List Bool) (acc : Nat × Nat) : Nat × Nat :=
  batch.foldl (fun sf r => if r then (sf.1 + 1, sf.2) else (sf.1, sf.2 + 1)) acc

/-- Lines 280–303: the end-of-run `(successful, failed)` tally, given
each task's boolean outcome. -/
def runBatches (results : List Bool) (batchSize : Nat) : Nat × Nat :=
  (chunks batchSize results).foldl (fun acc batch => countBatch batch acc) (0, 0)

/-! ## Claim-side definitions

These follow the wording of the specification, for comparison with the
definitions translated from the source above. -/

/-- The Path Rewriter algorithm as the spec words it, for a source path
beginning with the source prefix: strip exactly that prefix once from
the start, strip the leading separator from the remainder, concatenate
the target prefix (trailing separator trimmed) with a separator and the
remainder, and collapse doubled separators. -/
def rewriteClaim (srcPre tgtPre p : PyStr) : PyStr :=
  pyReplaceAll (pyRstrip '/' tgtPre ++ '/' :: pyLstrip '/' (p.drop srcPre.length)) ['/', '/'] ['/']

/-- The identifier search as the claim words it: the key at the top
level first, then one level deep inside mapping-valued fields and
inside the first element of list-valued fields, first match wins. -/
def searchClaim (fields : List (String × JVal)) : Option JVal :=
  match List.lookup "SalesCompanyId" fields with
  | some v => some v
  | none =>
      fields.findSome? (fun kv =>
        match kv.2 with
        | .obj sub => List.lookup "SalesCompanyId" sub
        | .arr (first :: _) =>
            match first with
            | .obj sub => List.lookup "SalesCompanyId" sub
            | _ => none
        | _ => none)

/-! ## Support definitions for the executor-trace statements -/

/-- Truth value of an `Except` outcome. -/
def exOk {α : Type} : Except String α → Bool
  | .ok _ => true
  | .error _ => false

/-- The downloaded bytes, when the download succeeds. -/
def contentOf (o : MoveOracle) : List Nat :=
  match o.downloadRes with
  | .ok c => c
  | .error _ => []

/-- The directory-ensuring events of a run of `move_file`: the
existence check, then the creation exactly when the directory is
absent. -/
def dirEvsOf (o : MoveOracle) (dir : PyStr) : List Ev :=
  if dir = [] then []
  else .checkDirExists dir ::
    (match o.existsRes with
     | .ok false => [.createDir dir]
     | _ => [])

/-- The full store-call sequence of a fully successful `move_file` run:
ensure the target directory, download, upload with overwrite, delete
the source. -/
def fullMoveTrace (o : MoveOracle) (dir : PyStr) : List Ev :=
  dirEvsOf o dir ++ [.download, .upload (contentOf o) true, .deleteSource]

/-- The oracle error associated with the store call a given event
records. -/
def stepErrorOf (o : MoveOracle) : Option Ev → Option String
  | some (.checkDirExists _) => match o.existsRes with | .error e => some e | .ok _ => none
  | some (.createDir _) => match o.createRes with | .error e => some e | .ok _ => none
  | some .download => match o.downloadRes with | .error e => some e | .ok _ => none
  | some (.upload _ _) => match o.uploadRes with | .error e => some e | .ok _ => none
  | some .deleteSource => match o.deleteRes with | .error e => some e | .ok _ => none
  | none => none

/-- Every store call a `move_file` run needs succeeds. -/
def stepsOk (o : MoveOracle) (dir : PyStr) : Bool :=
  (if dir = [] then true
   else match o.existsRes with
        | .error _ => false
        | .ok true => true
        | .ok false => exOk o.createRes)
  && exOk o.downloadRes && exOk o.uploadRes && exOk o.deleteRes

/-! ## Helper lemmas -/

/-- A `replace(pat, rep, 1)` on a string beginning with `pat` replaces
that leading occurrence. -/
theorem pyReplace1_of_isPrefixOf (p pat rep : PyStr) (h : pat.isPrefixOf p = true) :
    pyReplace1 p pat rep = rep ++ p.drop pat.length := by
  cases p with
  | nil => simp [pyReplace1, h]
  | cons c cs => simp [pyReplace1, h]

/-- A `replace(pat, rep, 1)` is the identity when `pat` does not occur
as a substring. -/
theorem pyReplace1_of_not_in (p pat rep : PyStr) (h : pyInStr pat p = false) :
    pyReplace1 p pat rep = p := by
  induction p with
  | nil =>
      cases pat with
      | nil => simp [pyInStr, List.isEmpty] at h
      | cons a l => simp [pyReplace1, List.isPrefixOf]
  | cons c cs ih =>
      simp only [pyInStr, Bool.or_eq_false_iff] at h
      simp [pyReplace1, h.1, ih h.2]

/-! ## Claim C1 -/

/-- C1 as stated is false: in manifest mode (`app.py`) the rewrite is a
bare substring replacement — for the source path `raw//a.json`, which
begins with the source prefix `raw/`, it yields
`/files/sbt/quotes//a.json`, while the claimed algorithm (strip the
prefix, strip the leading separator, re-parent and collapse doubled
separators) yields `/files/sbt/quotes/a.json`. -/
theorem spec_C1_counterexample :
    pyStartswith "raw//a.json".toList "raw/".toList = true
    ∧ manifestTargetPath "raw/".toList "/files/sbt/quotes/".toList "raw//a.json".toList
        ≠ rewriteClaim "raw/".toList "/files/sbt/quotes/".toList "raw//a.json".toList := by
  constructor
  · decide
  · decide

/-- C1 amended: for every source path beginning with the source prefix,
the predicate-mode rewriter (`move_file`) produces exactly the claimed
algorithm's result; the manifest-mode rewriter instead produces the
target prefix concatenated verbatim with the remainder after the prefix
(no separator stripping, no collapsing), provided the two prefixes
differ (else the basename fallback fires). -/
theorem spec_C1_amended (srcPre tgtPre p : PyStr) (h : pyStartswith p srcPre = true) :
    moveTargetPath srcPre tgtPre p = rewriteClaim srcPre tgtPre p
    ∧ (srcPre ≠ tgtPre →
        manifestTargetPath srcPre tgtPre p = tgtPre ++ p.drop srcPre.length) := by
  constructor
  · simp [moveTargetPath, rewriteClaim, h]
  · intro hne
    have hpre : srcPre.isPrefixOf p = true := h
    obtain ⟨rest, hrest⟩ := List.isPrefixOf_iff_prefix.mp hpre
    have hdrop : p.drop srcPre.length = rest := by
      rw [← hrest]; exact List.drop_left srcPre rest
    have hrepl := pyReplace1_of_isPrefixOf p srcPre tgtPre hpre
    have hneq : ((tgtPre ++ p.drop srcPre.length) == p) = false := by
      rw [hdrop, beq_eq_false_iff_ne]
      intro hEq
      rw [← hrest] at hEq
      exact hne (List.append_left_injective rest hEq).symm
    simp [manifestTargetPath, hrepl, hneq]

/-- Witness for `spec_C1_amended` at `raw/x/a.json`. -/
theorem spec_C1_witness :
    pyStartswith "raw/x/a.json".toList "raw/".toList = true
    ∧ moveTargetPath "raw/".toList "/files/sbt/quotes/".toList "raw/x/a.json".toList
        = rewriteClaim "raw/".toList "/files/sbt/quotes/".toList "raw/x/a.json".toList
    ∧ manifestTargetPath "raw/".toList "/files/sbt/quotes/".toList "raw/x/a.json".toList
        = "/files/sbt/quotes/".toList ++ ("raw/x/a.json".toList).drop ("raw/".toList).length :=
  ⟨by decide,
   (spec_C1_amended "raw/".toList "/files/sbt/quotes/".toList "raw/x/a.json".toList
      (by decide)).1,
   (spec_C1_amended "raw/".toList "/files/sbt/quotes/".toList "raw/x/a.json".toList
      (by decide)).2 (by decide)⟩

/-! ## Claim C4 -/

/-- C4: in manifest mode, when the source prefix does not occur as a
substring of the source path (so the substring-replace changes
nothing), the rewriter falls back to the target prefix (trailing
separator trimmed), a separator, and the basename of the source path —
discarding any intermediate directories. -/
theorem spec_C4 (srcPre tgtPre p : PyStr) (h : pyInStr srcPre p = false) :
    manifestTargetPath srcPre tgtPre p = pyRstrip '/' tgtPre ++ '/' :: pyBasename p := by
  have ht := pyReplace1_of_not_in p srcPre tgtPre h
  simp [manifestTargetPath, ht]

/-- Witness for `spec_C4` at `other/dir/a.json` (subdirectory structure
discarded: the result is the target prefix plus `a.json`). -/
theorem spec_C4_witness :
    pyInStr "raw/".toList "other/dir/a.json".toList = false
    ∧ manifestTargetPath "raw/".toList "/files/sbt/quotes/".toList "other/dir/a.json".toList
        = pyRstrip '/' "/files/sbt/quotes/".toList ++ '/' :: pyBasename "other/dir/a.json".toList
    ∧ manifestTargetPath "raw/".toList "/files/sbt/quotes/".toList "other/dir/a.json".toList
        = "/files/sbt/quotes/a.json".toList :=
  ⟨by decide,
   spec_C4 "raw/".toList "/files/sbt/quotes/".toList "other/dir/a.json".toList (by decide),
   by decide⟩

/-! ## Claim C2 -/

/-- Chunking by a positive batch size loses and duplicates nothing. -/
theorem chunksGo_flatten {α : Type} (b : Nat) (hb : 1 ≤ b) :
    ∀ (n : Nat) (l : List α), l.length ≤ n → (chunksGo b n l).flatten = l := by
  intro n
  induction n with
  | zero =>
      intro l hl
      have : l = [] := List.eq_nil_of_length_eq_zero (Nat.le_zero.mp hl)
      subst this
      rfl
  | succ n ih =>
      intro l hl
      cases l with
      | nil => rfl
      | cons c cs =>
          have hrec : ((c :: cs).drop b).length ≤ n := by
            rw [List.length_drop]
            simp only [List.length_cons] at hl ⊢
            omega
          simp only [chunksGo, List.flatten_cons, ih _ hrec, List.take_append_drop]

/-- Folding one batch adds exactly its size to the combined tally. -/
theorem countBatch_sum :
    ∀ (l : List Bool) (acc : Nat × Nat),
      (countBatch l acc).1 + (countBatch l acc).2 = acc.1 + acc.2 + l.length := by
  intro l
  induction l with
  | nil => intro acc; simp [countBatch]
  | cons r rs ih =>
      intro acc
      have hstep : countBatch (r :: rs) acc
          = countBatch rs (if r then (acc.1 + 1, acc.2) else (acc.1, acc.2 + 1)) := rfl
      rw [hstep, ih]
      cases r <;> simp <;> omega

/-- Folding a list of batches adds exactly the total task count. -/
theorem foldl_countBatch_sum :
    ∀ (L : List (List Bool)) (acc : Nat × Nat),
      ((L.foldl (fun a batch => countBatch batch a) acc).1
        + (L.foldl (fun a batch => countBatch batch a) acc).2)
        = acc.1 + acc.2 + L.flatten.length := by
  intro L
  induction L with
  | nil => intro acc; simp
  | cons batch rest ih =>
      intro acc
      have hstep : (batch :: rest).foldl (fun a batch => countBatch batch a) acc
          = rest.foldl (fun a batch => countBatch batch a) (countBatch batch acc) := rfl
      rw [hstep, ih, countBatch_sum]
      simp [Nat.add_assoc]

/-- C2: for every task-outcome list and every batch size ≥ 1, the
end-of-run tally satisfies `successful + failed = number of tasks`, and
the concatenation of the batches is exactly the task list (no task is
dropped by a failure of a sibling or of an earlier batch); in the
Scenario E instance (batch size 2, four tasks, task 2 failing) the
tally is `(3, 1)` and tasks 3 and 4 are still in the executed
sequence. -/
theorem spec_C2 :
    (∀ (results : List Bool) (batchSize : Nat), 1 ≤ batchSize →
        (runBatches results batchSize).1 + (runBatches results batchSize).2 = results.length
        ∧ (chunks batchSize results).flatten = results)
    ∧ runBatches [true, false, true, true] 2 = (3, 1)
    ∧ (chunks 2 [true, false, true, true]).flatten = [true, false, true, true] := by
  refine ⟨?_, by decide, by decide⟩
  intro results b hb
  have hfl : (chunks b results).flatten = results :=
    chunksGo_flatten b hb results.length results le_rfl
  refine ⟨?_, hfl⟩
  have h := foldl_countBatch_sum (chunks b results) (0, 0)
  rw [hfl] at h
  simpa [runBatches] using h

/-- Witness for `spec_C2` at Scenario E's task list. -/
theorem spec_C2_witness :
    1 ≤ 2
    ∧ (runBatches [true, false, true, true] 2).1 + (runBatches [true, false, true, true] 2).2
        = ([true, false, true, true] : List Bool).length :=
  ⟨by decide, (spec_C2.1 [true, false, true, true] 2 (by decide)).1⟩

/-! ## Claim C3 -/

/-- C3: in predicate mode, an object whose derived timestamp is
strictly below the configured lower bound is rejected with the
before-window reason, and its content is never fetched (third
component `false`: `check_file_content`, and hence the download, is
never invoked). -/
theorem spec_C3 (props : FileProps) (content : ContentResult) (bound fd : Int)
    (date_before : Option Int) (sales_company_id : Option String)
    (hfd : fileDateOf props = some fd) (hlt : fd < bound) :
    should_process_file props content (some bound) date_before sales_company_id
      = (false, .beforeFilterDate fd, false) := by
  simp [should_process_file, hfd, hlt]

/-- Witness for `spec_C3`: timestamp 5, lower bound 10, an identifier
criterion configured and content that would fail to fetch — rejected
before-window, nothing fetched. -/
theorem spec_C3_witness :
    should_process_file ⟨some 5, none⟩ .fetchError (some 10) none (some "42")
      = (false, .beforeFilterDate 5, false) :=
  spec_C3 ⟨some 5, none⟩ .fetchError 10 5 none (some "42") rfl (by decide)

/-! ## Claim C9 -/

/-- C9: an object with neither a creation time nor a last-modified time
skips the date checks entirely — its evaluation equals the evaluation
with no date bounds configured, and its rejection reason is never a
date-window reason, whatever bounds are configured. -/
theorem spec_C9 (props : FileProps) (hc : props.creation_time = none)
    (hm : props.last_modified = none) (content : ContentResult)
    (date_after date_before : Option Int) (sales_company_id : Option String) :
    should_process_file props content date_after date_before sales_company_id
      = should_process_file props content none none sales_company_id
    ∧ ∀ d : Int,
        (should_process_file props content date_after date_before sales_company_id).2.1
            ≠ .beforeFilterDate d
        ∧ (should_process_file props content date_after date_before sales_company_id).2.1
            ≠ .afterFilterDate d := by
  have hfd : fileDateOf props = none := by simp [fileDateOf, hc, hm]
  constructor
  · simp [should_process_file, hfd]
  · intro d
    simp only [should_process_file, hfd]
    cases sales_company_id with
    | none => simp [contentCheckPhase]
    | some cid =>
        cases hcheck : check_file_content content (some cid) <;>
          simp [contentCheckPhase, hcheck]

/-- Witness for `spec_C9`: no timestamps, bounds configured, the
evaluation is identical to the unbounded one. -/
theorem spec_C9_witness :
    should_process_file ⟨none, none⟩ .parseError (some 0) (some 0) none
      = should_process_file ⟨none, none⟩ .parseError none none none :=
  (spec_C9 ⟨none, none⟩ rfl rfl .parseError (some 0) (some 0) none).1

/-! ## Claim C10 -/

/-- C10: the derived timestamp is the creation time whenever one is
present, and the evaluator's result then does not depend on the
last-modified time at all. -/
theorem spec_C10 (props : FileProps) (t : Int) (hc : props.creation_time = some t) :
    fileDateOf props = some t
    ∧ ∀ (lm : Option Int) (content : ContentResult) (date_after date_before : Option Int)
        (sales_company_id : Option String),
        should_process_file ⟨some t, lm⟩ content date_after date_before sales_company_id
          = should_process_file ⟨some t, none⟩ content date_after date_before sales_company_id := by
  constructor
  · simp [fileDateOf, hc]
  · intro lm content da db cid
    simp [should_process_file, fileDateOf]

/-- Witness for `spec_C10`: creation time 7, last-modified 99 — the
derived date is 7 and the last-modified value is irrelevant. -/
theorem spec_C10_witness :
    fileDateOf ⟨some 7, some 99⟩ = some 7
    ∧ should_process_file ⟨some 7, some 99⟩ .parseError (some 0) none (some "42")
        = should_process_file ⟨some 7, none⟩ .parseError (some 0) none (some "42") :=
  ⟨(spec_C10 ⟨some 7, some 99⟩ 7 rfl).1,
   (spec_C10 ⟨some 7, some 99⟩ 7 rfl).2 (some 99) .parseError (some 0) none (some "42")⟩

/-! ## Claim C5 -/

/-- The source's nested scan (lines 72–82) is the first-match search
over the top-level fields described by the claim. -/
theorem scanNested_eq (fields : List (String × JVal)) :
    scanNested fields = fields.findSome? (fun kv =>
      match kv.2 with
      | .obj sub => List.lookup "SalesCompanyId" sub
      | .arr (first :: _) =>
          match first with
          | .obj sub => List.lookup "SalesCompanyId" sub
          | _ => none
      | _ => none) := by
  induction fields with
  | nil => rfl
  | cons kv rest ih =>
      obtain ⟨k, v⟩ := kv
      cases v with
      | null => simpa [scanNested] using ih
      | bool b => simpa [scanNested] using ih
      | num n => simpa [scanNested] using ih
      | str s => simpa [scanNested] using ih
      | obj sub =>
          cases hl : List.lookup "SalesCompanyId" sub <;> simp [scanNested, hl, ih]
      | arr l =>
          cases l with
          | nil => simpa [scanNested] using ih
          | cons first tl =>
              cases first with
              | null => simpa [scanNested] using ih
              | bool b => simpa [scanNested] using ih
              | num n => simpa [scanNested] using ih
              | str s => simpa [scanNested] using ih
              | arr l2 => simpa [scanNested] using ih
              | obj sub =>
                  cases hl : List.lookup "SalesCompanyId" sub <;> simp [scanNested, hl, ih]

/-- C5: with an identifier criterion configured and the content parsed
as a top-level mapping, the evaluator accepts exactly when the
first-match search — top level first, then one level deep inside
mapping-valued fields and inside the first element of list-valued
fields — finds a value whose string coercion equals the criterion; an
absent identifier is rejected.  In particular `{"SalesCompanyId": 42}`
matches the criterion `"42"`. -/
theorem spec_C5 :
    (∀ (fields : List (String × JVal)) (cid : String),
        check_file_content (.ok (.obj fields)) (some cid)
          = match searchClaim fields with
            | none => false
            | some v => pyStr v == cid)
    ∧ check_file_content (.ok (.obj [("SalesCompanyId", .num 42)])) (some "42") = true := by
  refine ⟨?_, by decide⟩
  intro fields cid
  simp only [check_file_content, findSCI, searchClaim]
  cases hl : List.lookup "SalesCompanyId" fields with
  | some v => simp [hl]
  | none =>
      rw [← scanNested_eq]
      cases hs : scanNested fields <;> simp [hs]

/-! ## Claim C6 -/

/-- C6: for a candidate that passes the date window, a content that
cannot be fetched or cannot be parsed as JSON leads to rejection (with
the identifier-mismatch reason) when an identifier criterion is set,
and to acceptance (the content check being skipped entirely) when no
criterion is set; the rejection is non-fatal — the filtering loop
simply drops the candidate and evaluates the remaining candidates
unchanged. -/
theorem spec_C6 (props : FileProps) (content : ContentResult)
    (date_after date_before : Option Int)
    (hfail : content = .fetchError ∨ content = .parseError)
    (hdate : dateRejects props date_after date_before = false) :
    (∀ cid : String,
        should_process_file props content date_after date_before (some cid)
          = (false, .salesCompanyMismatch, true))
    ∧ should_process_file props content date_after date_before none
        = (true, .matchesAllCriteria, false)
    ∧ (∀ (path : PyStr) (rest : List (PyStr × FileProps × ContentResult)) (cid : String),
        filterPhase ((path, props, content) :: rest) date_after date_before (some cid)
          = filterPhase rest date_after date_before (some cid)) := by
  have hpass : ∀ cid2 : Option String,
      should_process_file props content date_after date_before cid2
        = contentCheckPhase content cid2 := by
    intro cid2
    cases hfd : fileDateOf props with
    | none => simp [should_process_file, hfd]
    | some fd =>
        simp only [dateRejects, hfd, Bool.or_eq_false_iff] at hdate
        simp [should_process_file, hfd, hdate.1, hdate.2]
  have hcheck : ∀ cid : String, check_file_content content (some cid) = false := by
    rcases hfail with h | h <;> subst h <;> intro cid <;> rfl
  refine ⟨?_, ?_, ?_⟩
  · intro cid
    rw [hpass]
    simp [contentCheckPhase, hcheck cid]
  · rw [hpass]
    simp [contentCheckPhase]
  · intro path rest cid
    simp [filterPhase, hpass, contentCheckPhase, hcheck cid]

/-- Witness for `spec_C6`: no timestamps (so the date window passes),
unparseable content — rejected with criterion `"42"`, accepted with no
criterion. -/
theorem spec_C6_witness :
    should_process_file ⟨none, none⟩ .parseError none none (some "42")
      = (false, .salesCompanyMismatch, true)
    ∧ should_process_file ⟨none, none⟩ .parseError none none none
      = (true, .matchesAllCriteria, false) :=
  ⟨(spec_C6 ⟨none, none⟩ .parseError none none (Or.inr rfl) rfl).1 "42",
   (spec_C6 ⟨none, none⟩ .parseError none none (Or.inr rfl) rfl).2.1⟩

/-! ## Claim C7 -/

/-- C7 as stated is false: with every store call succeeding, the
executor's call sequence begins with the directory check and creation
and only then downloads — not download first as the claim orders the
steps. -/
theorem spec_C7_counterexample :
    (move_file "raw/".toList "/files/sbt/quotes/".toList "raw/a.json".toList
        ⟨.ok false, .ok (), .ok [65], .ok (), .ok ()⟩).1
      = [.checkDirExists "/files/sbt/quotes".toList, .createDir "/files/sbt/quotes".toList,
         .download, .upload [65] true, .deleteSource]
    ∧ (move_file "raw/".toList "/files/sbt/quotes/".toList "raw/a.json".toList
        ⟨.ok false, .ok (), .ok [65], .ok (), .ok ()⟩).1
      ≠ [.download, .checkDirExists "/files/sbt/quotes".toList,
         .createDir "/files/sbt/quotes".toList, .upload [65] true, .deleteSource] := by
  constructor
  · decide
  · decide

/-- C7 amended: the executor performs, in order, ensure the destination
parent directory exists (creating it if absent), download the source
content, upload it with overwrite allowed, delete the source; a failure
at any step aborts the task (the trace is a prefix of the full forward
sequence, with no compensating action) and the reported error is the
error of the last store call performed; the task succeeds exactly when
every step succeeds. -/
theorem spec_C7_amended (o : MoveOracle) (source_path TARGET_PATH file_path : PyStr) :
    (move_file source_path TARGET_PATH file_path o).1
        <+: fullMoveTrace o (targetDirOf (moveTargetPath source_path TARGET_PATH file_path))
    ∧ (move_file source_path TARGET_PATH file_path o).2.1
        = stepsOk o (targetDirOf (moveTargetPath source_path TARGET_PATH file_path))
    ∧ ((move_file source_path TARGET_PATH file_path o).2.1 = true
        ↔ (move_file source_path TARGET_PATH file_path o).2.2 = none)
    ∧ (∀ e, (move_file source_path TARGET_PATH file_path o).2.2 = some e →
        stepErrorOf o (move_file source_path TARGET_PATH file_path o).1.getLast? = some e) := by
  rcases o with ⟨ex, cr, dl, ul, del⟩
  by_cases hdir : targetDirOf (moveTargetPath source_path TARGET_PATH file_path) = [] <;>
    rcases ex with e1 | (_ | _) <;> rcases cr with e2 | _ <;> rcases dl with e3 | c <;>
      rcases ul with e4 | _ <;> rcases del with e5 | _ <;>
        simp_all [move_file, fullMoveTrace, dirEvsOf, stepsOk, stepErrorOf, exOk, contentOf,
          List.cons_prefix_cons]

/-- Witness for `spec_C7_amended` at an all-successful oracle and at a
delete-failing oracle: the all-ok trace is the full forward sequence,
and the delete failure's reported error is the delete call's error. -/
theorem spec_C7_witness :
    (move_file "raw/".toList "/files/sbt/quotes/".toList "raw/a.json".toList
        ⟨.ok false, .ok (), .ok [65], .ok (), .error "boom"⟩).1
      <+: fullMoveTrace ⟨.ok false, .ok (), .ok [65], .ok (), .error "boom"⟩
            (targetDirOf (moveTargetPath "raw/".toList "/files/sbt/quotes/".toList
              "raw/a.json".toList))
    ∧ stepErrorOf ⟨.ok false, .ok (), .ok [65], .ok (), .error "boom"⟩
        ((move_file "raw/".toList "/files/sbt/quotes/".toList "raw/a.json".toList
          ⟨.ok false, .ok (), .ok [65], .ok (), .error "boom"⟩).1.getLast?)
      = some "boom" :=
  ⟨(spec_C7_amended ⟨.ok false, .ok (), .ok [65], .ok (), .error "boom"⟩
      "raw/".toList "/files/sbt/quotes/".toList "raw/a.json".toList).1,
   (spec_C7_amended ⟨.ok false, .ok (), .ok [65], .ok (), .error "boom"⟩
      "raw/".toList "/files/sbt/quotes/".toList "raw/a.json".toList).2.2.2 "boom" (by decide)⟩

/-! ## Claim C8 -/

/-- C8: in manifest mode the executor issues exactly one copy request
(from the source URL to the rewritten destination), never performs any
delete (the source object stays in place), succeeds exactly when the
issuance succeeds, and is entirely insensitive to the copy's completion
status. -/
theorem spec_C8 (urlBase srcPre tgtPre blob_name : PyStr) (o : CopyOracle) :
    (copy_and_delete_blob urlBase srcPre tgtPre blob_name o).1
      = [.startCopy (urlBase ++ blob_name) (manifestTargetPath srcPre tgtPre blob_name)]
    ∧ (∀ b : PyStr,
        BlobEv.deleteBlob b ∉ (copy_and_delete_blob urlBase srcPre tgtPre blob_name o).1)
    ∧ (copy_and_delete_blob urlBase srcPre tgtPre blob_name o).2 = exOk o.startCopyRes
    ∧ (∀ completed : Bool,
        copy_and_delete_blob urlBase srcPre tgtPre blob_name ⟨o.startCopyRes, completed⟩
          = copy_and_delete_blob urlBase srcPre tgtPre blob_name o) := by
  rcases o with ⟨sc, comp⟩
  rcases sc with e | cid <;> simp [copy_and_delete_blob, exOk]

end DatalakeMove
